import Mathlib

/-!
Verification development for the TideLogs Log Ingestion & Query Engine.

The durable schema is taken from `src/init.sql` (table `logs` with columns
`id`, `timestamp`, `service`, `level`, `message`, `metadata JSONB DEFAULT '{}'`,
`created_at`).  The response shapes are taken from the frontend type
declarations (`LogFilters`, `LogResponse`, `Metrics`).  The backend engine
itself (Rust/Axum, per the repository README) is not present in the source
tree, so the ingest handler, query engine and metrics aggregator are modelled
from the specification, against the schema above.
-/

/-- JSON documents.  Objects are ordered lists of key-value pairs, so that
submitted key order and duplicate keys are representable and fidelity of
storage can be stated. -/
inductive Json where
  | null : Json
  | bool (b : Bool) : Json
  | num (n : Int) : Json
  | str (s : String) : Json
  | arr (elems : List Json) : Json
  | obj (fields : List (String × Json)) : Json

mutual
/-- Decidable equality on JSON documents. -/
def Json.decEq : (a b : Json) → Decidable (a = b)
  | .null, .null => .isTrue rfl
  | .null, .bool _ => .isFalse (fun h => Json.noConfusion h)
  | .null, .num _ => .isFalse (fun h => Json.noConfusion h)
  | .null, .str _ => .isFalse (fun h => Json.noConfusion h)
  | .null, .arr _ => .isFalse (fun h => Json.noConfusion h)
  | .null, .obj _ => .isFalse (fun h => Json.noConfusion h)
  | .bool _, .null => .isFalse (fun h => Json.noConfusion h)
  | .bool a, .bool b =>
      if h : a = b then .isTrue (by rw [h]) else .isFalse (by intro hc; injection hc; contradiction)
  | .bool _, .num _ => .isFalse (fun h => Json.noConfusion h)
  | .bool _, .str _ => .isFalse (fun h => Json.noConfusion h)
  | .bool _, .arr _ => .isFalse (fun h => Json.noConfusion h)
  | .bool _, .obj _ => .isFalse (fun h => Json.noConfusion h)
  | .num _, .null => .isFalse (fun h => Json.noConfusion h)
  | .num _, .bool _ => .isFalse (fun h => Json.noConfusion h)
  | .num a, .num b =>
      if h : a = b then .isTrue (by rw [h]) else .isFalse (by intro hc; injection hc; contradiction)
  | .num _, .str _ => .isFalse (fun h => Json.noConfusion h)
  | .num _, .arr _ => .isFalse (fun h => Json.noConfusion h)
  | .num _, .obj _ => .isFalse (fun h => Json.noConfusion h)
  | .str _, .null => .isFalse (fun h => Json.noConfusion h)
  | .str _, .bool _ => .isFalse (fun h => Json.noConfusion h)
  | .str _, .num _ => .isFalse (fun h => Json.noConfusion h)
  | .str a, .str b =>
      if h : a = b then .isTrue (by rw [h]) else .isFalse (by intro hc; injection hc; contradiction)
  | .str _, .arr _ => .isFalse (fun h => Json.noConfusion h)
  | .str _, .obj _ => .isFalse (fun h => Json.noConfusion h)
  | .arr _, .null => .isFalse (fun h => Json.noConfusion h)
  | .arr _, .bool _ => .isFalse (fun h => Json.noConfusion h)
  | .arr _, .num _ => .isFalse (fun h => Json.noConfusion h)
  | .arr _, .str _ => .isFalse (fun h => Json.noConfusion h)
  | .arr xs, .arr ys =>
      match Json.decEqList xs ys with
      | .isTrue h => .isTrue (by rw [h])
      | .isFalse h => .isFalse (by intro hc; injection hc; contradiction)
  | .arr _, .obj _ => .isFalse (fun h => Json.noConfusion h)
  | .obj _, .null => .isFalse (fun h => Json.noConfusion h)
  | .obj _, .bool _ => .isFalse (fun h => Json.noConfusion h)
  | .obj _, .num _ => .isFalse (fun h => Json.noConfusion h)
  | .obj _, .str _ => .isFalse (fun h => Json.noConfusion h)
  | .obj _, .arr _ => .isFalse (fun h => Json.noConfusion h)
  | .obj xs, .obj ys =>
      match Json.decEqFields xs ys with
      | .isTrue h => .isTrue (by rw [h])
      | .isFalse h => .isFalse (by intro hc; injection hc; contradiction)

/-- Decidable equality on lists of JSON documents. -/
def Json.decEqList : (xs ys : List Json) → Decidable (xs = ys)
  | [], [] => .isTrue rfl
  | [], _ :: _ => .isFalse (fun h => List.noConfusion h)
  | _ :: _, [] => .isFalse (fun h => List.noConfusion h)
  | x :: xs, y :: ys =>
      match Json.decEq x y, Json.decEqList xs ys with
      | .isTrue h1, .isTrue h2 => .isTrue (by rw [h1, h2])
      | .isFalse h1, _ => .isFalse (by intro hc; injection hc; contradiction)
      | _, .isFalse h2 => .isFalse (by intro hc; injection hc; contradiction)

/-- Decidable equality on JSON object field lists. -/
def Json.decEqFields : (xs ys : List (String × Json)) → Decidable (xs = ys)
  | [], [] => .isTrue rfl
  | [], _ :: _ => .isFalse (fun h => List.noConfusion h)
  | _ :: _, [] => .isFalse (fun h => List.noConfusion h)
  | (k1, v1) :: xs, (k2, v2) :: ys =>
      match String.decEq k1 k2, Json.decEq v1 v2, Json.decEqFields xs ys with
      | .isTrue hk, .isTrue hv, .isTrue ht => .isTrue (by rw [hk, hv, ht])
      | .isFalse hk, _, _ =>
          .isFalse (by intro hc; injection hc with h1 h2; injection h1; contradiction)
      | _, .isFalse hv, _ =>
          .isFalse (by intro hc; injection hc with h1 h2; injection h1; contradiction)
      | _, _, .isFalse ht =>
          .isFalse (by intro hc; injection hc with h1 h2; contradiction)
end

instance : DecidableEq Json := Json.decEq

/-- PostgreSQL `jsonb` object-key storage order: shorter keys first,
equal-length keys byte-wise. -/
def jsonbKeyLe (a b : String) : Bool :=
  a.length < b.length || (a.length == b.length && a ≤ b)

/-- Insert one field into a key-sorted field list (jsonb key order). -/
def insertField (kv : String × Json) : List (String × Json) → List (String × Json)
  | [] => [kv]
  | kv2 :: rest =>
      if jsonbKeyLe kv.1 kv2.1 then kv :: kv2 :: rest else kv2 :: insertField kv rest

/-- Sort an object's fields into jsonb key order (insertion sort). -/
def sortFields : List (String × Json) → List (String × Json)
  | [] => []
  | kv :: rest => insertField kv (sortFields rest)

/-- Drop all but the last occurrence of each key, as `jsonb` does. -/
def dedupFields : List (String × Json) → List (String × Json)
  | [] => []
  | kv :: rest =>
      if rest.any (fun kv2 => kv2.1 == kv.1) then dedupFields rest
      else kv :: dedupFields rest

mutual
/-- Modelled from the spec and `src/init.sql`: the `metadata` column is
`JSONB`, and PostgreSQL `jsonb` normalizes documents on storage — object keys
are re-sorted into storage order, duplicate keys are collapsed (last value
wins), recursively at every nesting depth. -/
def Json.jsonbNorm : Json → Json
  | .null => .null
  | .bool b => .bool b
  | .num n => .num n
  | .str s => .str s
  | .arr elems => .arr (jsonbNormList elems)
  | .obj fields => .obj (sortFields (dedupFields (jsonbNormFields fields)))

/-- Normalize every element of a JSON array. -/
def jsonbNormList : List Json → List Json
  | [] => []
  | j :: rest => j.jsonbNorm :: jsonbNormList rest

/-- Normalize every value of a JSON object's field list. -/
def jsonbNormFields : List (String × Json) → List (String × Json)
  | [] => []
  | (k, v) :: rest => (k, v.jsonbNorm) :: jsonbNormFields rest
end

/-- One row of the `logs` table of `src/init.sql`.  `timestamp` is the
spec's `event_time`; `created_at` is the spec's `ingested_at`.  The `UUID`
primary key is modelled as an opaque natural number. -/
structure LogRecord where
  id : Nat
  timestamp : Int
  service : String
  level : String
  message : String
  metadata : Json
  created_at : Int
deriving DecidableEq

/-- The storage layer state: the append-only `logs` relation plus the id
generator backing the `id` column's insertion-time default. -/
structure Store where
  records : List LogRecord
  nextId : Nat


/-- The empty storage state. -/
def emptyStore : Store := { records := [], nextId := 0 }

/-- Modelled from the spec: an inbound candidate record, `service`, `level`,
`message` required, `metadata` and `event_time` optional.  `Option` makes
"missing" representable. -/
structure IngestRequest where
  service : Option String
  level : Option String
  message : Option String
  metadata : Option Json
  timestamp : Option Int


/-- Modelled from the spec: ingest fails with `ValidationError` naming the
failing field. -/
inductive IngestError where
  | validationError (field : String)
deriving DecidableEq

/-- A required string field is present and non-empty. -/
def presentNonEmpty : Option String → Bool
  | none => false
  | some s => !s.isEmpty

/-- A request passes ingest validation: `service`, `level`, `message` all
present and non-empty. -/
def validRequest (req : IngestRequest) : Bool :=
  presentNonEmpty req.service && presentNonEmpty req.level && presentNonEmpty req.message

/-- The fully materialized record built by the ingest handler for a valid
request: a generated `id`, `event_time` defaulted to the handling instant,
`metadata` defaulted to `'{}'` (the schema default of `src/init.sql`) and
stored through the `jsonb` column. -/
def mkRecord (st : Store) (now : Int) (req : IngestRequest) : LogRecord :=
  { id := st.nextId
  , timestamp := req.timestamp.getD now
  , service := req.service.getD ""
  , level := req.level.getD ""
  , message := req.message.getD ""
  , metadata := (req.metadata.getD (Json.obj [])).jsonbNorm
  , created_at := now }

/-- Modelled from the spec (§4.2 Ingest Handler): validate, fill defaults,
perform exactly one atomic insert, return the materialized record. -/
def ingest (st : Store) (now : Int) (req : IngestRequest) :
    Except IngestError (LogRecord × Store) :=
  if presentNonEmpty req.service = false then .error (.validationError "service")
  else if presentNonEmpty req.level = false then .error (.validationError "level")
  else if presentNonEmpty req.message = false then .error (.validationError "message")
  else .ok (mkRecord st now req,
            { records := st.records ++ [mkRecord st now req], nextId := st.nextId + 1 })

/-- The storage state after one ingest call (a failed call changes nothing). -/
def applyIngest (st : Store) (step : Int × IngestRequest) : Store :=
  match ingest st step.1 step.2 with
  | .ok (_, st2) => st2
  | .error _ => st

/-- The storage state after a sequence of ingest calls. -/
def runIngests (st : Store) (steps : List (Int × IngestRequest)) : Store :=
  steps.foldl applyIngest st

/-- The query request shape, from the frontend type declarations
(`LogFilters`): optional `service` and `level` equality filters, optional
`limit` and `offset`. -/
structure LogFilters where
  service : Option String
  level : Option String
  limit : Option Int
  offset : Option Int

/-- The query response shape, from the frontend type declarations
(`LogResponse`): the page of records plus the total count of matches
ignoring pagination. -/
structure LogResponse where
  logs : List LogRecord
  total : Nat
deriving DecidableEq

/-- Modelled from the spec (§4.3): filters compose conjunctively — every
filter that is present must match by equality, an absent filter imposes no
constraint. -/
def matchesFilters (f : LogFilters) (r : LogRecord) : Bool :=
  (match f.service with | none => true | some sv => r.service == sv) &&
  (match f.level with | none => true | some lv => r.level == lv)

/-- Modelled from the spec (§4.3): the query ordering — `event_time`
descending (most recent first), ties broken by `id`. -/
def recordBefore (a b : LogRecord) : Bool :=
  decide (b.timestamp < a.timestamp) ||
    (a.timestamp == b.timestamp && decide (a.id ≤ b.id))

/-- Insert one record into a list sorted by `recordBefore`. -/
def insertRecord (r : LogRecord) : List LogRecord → List LogRecord
  | [] => [r]
  | x :: xs => if recordBefore r x then r :: x :: xs else x :: insertRecord r xs

/-- Sort records by `event_time` descending, ties broken by `id`
(insertion sort). -/
def sortRecords : List LogRecord → List LogRecord
  | [] => []
  | r :: rs => insertRecord r (sortRecords rs)

/-- Modelled from the spec (§4.3): the default page size. -/
def defaultLimit : Nat := 100

/-- Modelled from the spec (§4.3): the configured hard ceiling on `limit`. -/
def maxLimit : Nat := 1000

/-- Modelled from the spec (§4.3, §7): `limit` is clamped silently, never
rejected — a missing limit defaults to 100, a negative limit clamps to the
default, an over-ceiling limit clamps to the ceiling. -/
def clampLimit : Option Int → Nat
  | none => defaultLimit
  | some l => if l < 0 then defaultLimit else min l.toNat maxLimit

/-- Modelled from the spec (§4.3 Query Engine): filter conjunctively, order
by `event_time` descending with `id` tie-break, apply `offset` then `limit`,
and return the page together with the total count of matches ignoring
pagination. -/
def query (st : Store) (f : LogFilters) : LogResponse :=
  let matching := st.records.filter (matchesFilters f)
  let sorted := sortRecords matching
  let lim := clampLimit f.limit
  let off := (f.offset.getD 0).toNat
  { logs := (sorted.drop off).take lim, total := matching.length }

/-- The metrics response shape, from the frontend type declarations
(`Metrics`); the two mappings are modelled as association lists. -/
structure Metrics where
  total_logs : Nat
  services : List (String × Nat)
  levels : List (String × Nat)
deriving DecidableEq

/-- Add one occurrence of a key to a grouped-count association list. -/
def bumpCount (k : String) : List (String × Nat) → List (String × Nat)
  | [] => [(k, 1)]
  | (k2, n) :: rest => if k == k2 then (k2, n + 1) :: rest else (k2, n) :: bumpCount k rest

/-- Modelled from the spec (§4.1): the storage layer's grouping query,
counting records grouped by a key. -/
def countGroupedBy (key : LogRecord → String) : List LogRecord → List (String × Nat)
  | [] => []
  | r :: rest => bumpCount (key r) (countGroupedBy key rest)

/-- Look a key up in a grouped-count association list; an absent key counts
zero. -/
def lookupCount (m : List (String × Nat)) (k : String) : Nat :=
  match m.find? (fun e => e.1 == k) with
  | none => 0
  | some e => e.2

/-- Modelled from the spec (§4.4 Metrics Aggregator): total record count and
per-service / per-level counts, computed fresh from the store on every call
with no caching. -/
def metrics (st : Store) : Metrics :=
  { total_logs := st.records.length
  , services := countGroupedBy (fun r => r.service) st.records
  , levels := countGroupedBy (fun r => r.level) st.records }

/-- JavaScript truthiness of an optional string: `undefined` and the empty
string are falsy (from `fetchLogs` in the frontend source). -/
def jsTruthyStr : Option String → Bool
  | none => false
  | some s => !s.isEmpty

/-- JavaScript truthiness of an optional number: `undefined` and `0` are
falsy (from `fetchLogs` in the frontend source). -/
def jsTruthyInt : Option Int → Bool
  | none => false
  | some n => !(n == 0)

/-- The client request builder `fetchLogs` of the frontend source: each
filter field is appended to the request's search params only when its value
is truthy. -/
def fetchLogsParams (f : LogFilters) : List (String × String) :=
  let ps : List (String × String) := []
  let ps := if jsTruthyStr f.service then ps ++ [("service", f.service.getD "")] else ps
  let ps := if jsTruthyStr f.level then ps ++ [("level", f.level.getD "")] else ps
  let ps := if jsTruthyInt f.limit then ps ++ [("limit", toString (f.limit.getD 0))] else ps
  let ps := if jsTruthyInt f.offset then ps ++ [("offset", toString (f.offset.getD 0))] else ps
  ps

/-- A sample persisted record, used to instantiate general theorems. -/
def sampleRecord : LogRecord :=
  { id := 0, timestamp := 10, service := "auth-service", level := "ERROR"
  , message := "Failed login", metadata := Json.obj [], created_at := 10 }

/-- A sample one-record store. -/
def sampleStore : Store := { records := [sampleRecord], nextId := 1 }

/-- A sample valid ingest request carrying no metadata. -/
def sampleRequest : IngestRequest :=
  { service := some "auth-service", level := some "ERROR"
  , message := some "Failed login", metadata := none, timestamp := some 10 }

/-- The scenario request of the spec, with metadata keys submitted in the
order `user_id`, `ip`. -/
def c1Meta : Json := Json.obj [("user_id", Json.str "456"), ("ip", Json.str "1.2.3.4")]

/-- The spec's scenario ingest request carrying `c1Meta`. -/
def c1Request : IngestRequest :=
  { service := some "auth-service", level := some "ERROR"
  , message := some "Failed login", metadata := some c1Meta, timestamp := some 5 }

/-- The store after ingesting `c1Request` into the empty store. -/
def c1Store : Store := applyIngest emptyStore (5, c1Request)

/-- The spec's scenario query filters. -/
def c1Filters : LogFilters :=
  { service := some "auth-service", level := some "ERROR", limit := none, offset := none }

/-- The write-then-read filters of §8: equality on the ingested record's own
`service` and `level`, with an explicit limit. -/
def selfFilters (r : LogRecord) (L : Int) : LogFilters :=
  { service := some r.service, level := some r.level, limit := some L, offset := none }

/-- The query ordering relation is total. -/
theorem recordBefore_total (a b : LogRecord) :
    recordBefore a b = true ∨ recordBefore b a = true := by
  simp only [recordBefore, Bool.or_eq_true, Bool.and_eq_true, decide_eq_true_eq, beq_iff_eq]
  omega

/-- The query ordering relation is transitive. -/
theorem recordBefore_trans {a b c : LogRecord} (h1 : recordBefore a b = true)
    (h2 : recordBefore b c = true) : recordBefore a c = true := by
  simp only [recordBefore, Bool.or_eq_true, Bool.and_eq_true, decide_eq_true_eq,
    beq_iff_eq] at h1 h2 ⊢
  omega

/-- Inserting into a sorted list permutes consing. -/
theorem insertRecord_perm (r : LogRecord) (l : List LogRecord) :
    List.Perm (insertRecord r l) (r :: l) := by
  induction l with
  | nil => simp [insertRecord]
  | cons x xs ih =>
      by_cases hc : recordBefore r x = true
      · simp [insertRecord, hc]
      · simp only [insertRecord, hc, if_false, Bool.false_eq_true]
        exact (List.Perm.cons x ih).trans (List.Perm.swap r x xs)

/-- Membership in an insertion. -/
theorem mem_insertRecord {y r : LogRecord} {l : List LogRecord} :
    y ∈ insertRecord r l ↔ y = r ∨ y ∈ l := by
  rw [(insertRecord_perm r l).mem_iff, List.mem_cons]

/-- Insertion preserves sortedness. -/
theorem pairwise_insertRecord {l : List LogRecord} (r : LogRecord)
    (h : List.Pairwise (fun a b => recordBefore a b = true) l) :
    List.Pairwise (fun a b => recordBefore a b = true) (insertRecord r l) := by
  induction l with
  | nil => simp [insertRecord]
  | cons x xs ih =>
      rw [List.pairwise_cons] at h
      obtain ⟨hx, hxs⟩ := h
      by_cases hc : recordBefore r x = true
      · rw [insertRecord, if_pos hc, List.pairwise_cons]
        refine ⟨?_, List.pairwise_cons.mpr ⟨hx, hxs⟩⟩
        intro y hy
        rcases List.mem_cons.mp hy with hy | hy
        · exact hy ▸ hc
        · exact recordBefore_trans hc (hx y hy)
      · rw [insertRecord, if_neg (by simp [hc]), List.pairwise_cons]
        refine ⟨?_, ih hxs⟩
        intro y hy
        rcases mem_insertRecord.mp hy with hy | hy
        · rw [hy]
          rcases recordBefore_total r x with ht | ht
          · exact absurd ht hc
          · exact ht
        · exact hx y hy

/-- Sorting permutes the input. -/
theorem sortRecords_perm (l : List LogRecord) : List.Perm (sortRecords l) l := by
  induction l with
  | nil => simp [sortRecords]
  | cons r rs ih =>
      exact (insertRecord_perm r (sortRecords rs)).trans (List.Perm.cons r ih)

/-- Sorting yields a list sorted by the query ordering. -/
theorem sortRecords_pairwise (l : List LogRecord) :
    List.Pairwise (fun a b => recordBefore a b = true) (sortRecords l) := by
  induction l with
  | nil => simp [sortRecords]
  | cons r rs ih => exact pairwise_insertRecord r ih

/-- Sorting preserves membership. -/
theorem mem_sortRecords {a : LogRecord} {l : List LogRecord} :
    a ∈ sortRecords l ↔ a ∈ l :=
  (sortRecords_perm l).mem_iff

/-- Sorting preserves length. -/
theorem length_sortRecords (l : List LogRecord) :
    (sortRecords l).length = l.length :=
  (sortRecords_perm l).length_eq

/-- The page returned by a query is a sublist of the sorted matching set. -/
theorem query_logs_sublist (st : Store) (f : LogFilters) :
    (query st f).logs.Sublist (sortRecords (st.records.filter (matchesFilters f))) := by
  exact (List.take_sublist _ _).trans (List.drop_sublist _ _)

/-- A valid request makes ingest succeed with the materialized record. -/
theorem ingest_eq_ok (st : Store) (now : Int) (req : IngestRequest)
    (h : validRequest req = true) :
    ingest st now req = .ok (mkRecord st now req,
      { records := st.records ++ [mkRecord st now req], nextId := st.nextId + 1 }) := by
  simp only [validRequest, Bool.and_eq_true] at h
  obtain ⟨⟨h1, h2⟩, h3⟩ := h
  simp [ingest, h1, h2, h3]

/-- An invalid request makes ingest fail with a `ValidationError` naming a
field. -/
theorem ingest_eq_error (st : Store) (now : Int) (req : IngestRequest)
    (h : validRequest req = false) :
    ∃ fld, ingest st now req = .error (.validationError fld) := by
  by_cases h1 : presentNonEmpty req.service = false
  · exact ⟨"service", by simp [ingest, h1]⟩
  · by_cases h2 : presentNonEmpty req.level = false
    · exact ⟨"level", by simp [ingest, h1, h2]⟩
    · by_cases h3 : presentNonEmpty req.message = false
      · exact ⟨"message", by simp [ingest, h1, h2, h3]⟩
      · exfalso
        simp only [Bool.not_eq_false] at h1 h2 h3
        simp [validRequest, h1, h2, h3] at h

/-- A failed ingest call leaves the store untouched. -/
theorem applyIngest_invalid (st : Store) (now : Int) (req : IngestRequest)
    (h : validRequest req = false) : applyIngest st (now, req) = st := by
  obtain ⟨fld, hfld⟩ := ingest_eq_error st now req h
  simp [applyIngest, hfld]

/-- The record list after one ingest call: appended on success, unchanged on
failure. -/
theorem applyIngest_records (st : Store) (now : Int) (req : IngestRequest) :
    (applyIngest st (now, req)).records =
      if validRequest req then st.records ++ [mkRecord st now req] else st.records := by
  by_cases h : validRequest req
  · simp [applyIngest, ingest_eq_ok st now req h, h]
  · simp [applyIngest_invalid st now req (by simpa using h), h]

/-- The id generator after one ingest call. -/
theorem applyIngest_nextId (st : Store) (now : Int) (req : IngestRequest) :
    (applyIngest st (now, req)).nextId =
      if validRequest req then st.nextId + 1 else st.nextId := by
  by_cases h : validRequest req
  · simp [applyIngest, ingest_eq_ok st now req h, h]
  · simp [applyIngest_invalid st now req (by simpa using h), h]

/-- Unfolding a run of ingest calls one step. -/
theorem runIngests_cons (st : Store) (p : Int × IngestRequest)
    (steps : List (Int × IngestRequest)) :
    runIngests st (p :: steps) = runIngests (applyIngest st p) steps := rfl

/-- A run of ingest calls appends exactly one record per valid request. -/
theorem runIngests_length (steps : List (Int × IngestRequest)) (st : Store) :
    (runIngests st steps).records.length =
      st.records.length + (steps.filter (fun p => validRequest p.2)).length := by
  induction steps generalizing st with
  | nil => simp [runIngests]
  | cons p rest ih =>
      obtain ⟨now, req⟩ := p
      rw [runIngests_cons, ih, List.filter_cons]
      by_cases h : validRequest req
      · simp [h, applyIngest_records, List.length_append]
        omega
      · simp [h, applyIngest_records]

/-- Successful ingestion inverted: the returned record is the materialized
one and the new store appends exactly it. -/
theorem ingest_ok_inv {st : Store} {now : Int} {req : IngestRequest}
    {r : LogRecord} {st2 : Store} (h : ingest st now req = .ok (r, st2)) :
    r = mkRecord st now req ∧
      st2 = { records := st.records ++ [mkRecord st now req], nextId := st.nextId + 1 } := by
  by_cases hv : validRequest req
  · rw [ingest_eq_ok st now req hv] at h
    have := Except.ok.inj h
    exact ⟨(Prod.mk.injEq _ _ _ _ ▸ this).1.symm, (Prod.mk.injEq _ _ _ _ ▸ this).2.symm⟩
  · obtain ⟨fld, hfld⟩ := ingest_eq_error st now req (by simpa using hv)
    rw [hfld] at h
    exact absurd h (by simp)

/-- Looking up a key after bumping it adds one to that key's count and leaves
other keys alone. -/
theorem lookupCount_bumpCount (k k2 : String) (m : List (String × Nat)) :
    lookupCount (bumpCount k m) k2 =
      (if k2 = k then 1 else 0) + lookupCount m k2 := by
  induction m with
  | nil =>
      by_cases h : k2 = k
      · subst h
        simp [bumpCount, lookupCount, List.find?]
      · have hk : (k == k2) = false := by
          simp only [beq_eq_false_iff_ne, ne_eq]
          exact fun hc => h hc.symm
        simp [bumpCount, lookupCount, List.find?, hk, h]
  | cons kv rest ih =>
      obtain ⟨a, n⟩ := kv
      by_cases hka : k = a
      · subst hka
        have hkk : (k == k) = true := by simp
        by_cases h2 : k2 = k
        · subst h2
          simp [bumpCount, lookupCount, List.find?_cons, hkk]
          omega
        · have hk2 : (k == k2) = false := by
            simp only [beq_eq_false_iff_ne, ne_eq]
            exact fun hc => h2 hc.symm
          simp [bumpCount, lookupCount, List.find?_cons, hkk, hk2, h2]
      · have hka2 : (k == a) = false := by simpa using hka
        by_cases h2 : k2 = a
        · subst h2
          have hk2a : (k2 == k2) = true := by simp
          have hne : ¬ k2 = k := fun hc => hka (hc ▸ rfl)
          simp [bumpCount, lookupCount, List.find?_cons, hka2, hk2a, hne]
        · have ha2 : (a == k2) = false := by
            simp only [beq_eq_false_iff_ne, ne_eq]
            exact fun hc => h2 hc.symm
          simp only [bumpCount, hka2, if_false, Bool.false_eq_true]
          simp only [lookupCount] at ih ⊢
          rw [List.find?_cons, List.find?_cons]
          simp only [ha2]
          exact ih

/-- The grouping query counts exactly the records carrying each key value. -/
theorem lookupCount_countGroupedBy (key : LogRecord → String)
    (rs : List LogRecord) (k : String) :
    lookupCount (countGroupedBy key rs) k
      = (rs.filter (fun r => key r == k)).length := by
  induction rs with
  | nil => simp [countGroupedBy, lookupCount, List.find?]
  | cons r rest ih =>
      rw [countGroupedBy, lookupCount_bumpCount, ih, List.filter_cons]
      by_cases h : key r = k
      · simp [h]
        omega
      · have hb : (key r == k) = false := by simpa using h
        have hnk : ¬ k = key r := fun hc => h hc.symm
        simp [hb, hnk]

/-- The store invariant maintained by the write path: every persisted id is
below the generator, and ids are pairwise distinct. -/
def StoreInv (st : Store) : Prop :=
  (∀ r ∈ st.records, r.id < st.nextId) ∧
    List.Pairwise (fun a b => a.id ≠ b.id) st.records

/-- One ingest call preserves the store invariant. -/
theorem applyIngest_inv {st : Store} (p : Int × IngestRequest)
    (h : StoreInv st) : StoreInv (applyIngest st p) := by
  obtain ⟨now, req⟩ := p
  by_cases hv : validRequest req
  · constructor
    · intro r hr
      rw [applyIngest_records, if_pos hv] at hr
      rw [applyIngest_nextId, if_pos hv]
      rcases List.mem_append.mp hr with hr | hr
      · exact Nat.lt_succ_of_lt (h.1 r hr)
      · rw [List.mem_singleton.mp hr]
        exact Nat.lt_succ_self st.nextId
    · rw [applyIngest_records, if_pos hv]
      rw [List.pairwise_append]
      refine ⟨h.2, List.pairwise_singleton _ _, ?_⟩
      intro a ha b hb
      rw [List.mem_singleton.mp hb]
      exact Nat.ne_of_lt (h.1 a ha)
  · rw [applyIngest_invalid st now req (by simpa using hv)]
    exact h

/-- A run of ingest calls preserves the store invariant. -/
theorem runIngests_inv (steps : List (Int × IngestRequest)) (st : Store)
    (h : StoreInv st) : StoreInv (runIngests st steps) := by
  induction steps generalizing st with
  | nil => exact h
  | cons p rest ih => exact ih (applyIngest st p) (applyIngest_inv p h)

/-- Filter matching unfolded: equality on each present filter, no constraint
from an absent one. -/
theorem matchesFilters_iff (f : LogFilters) (r : LogRecord) :
    matchesFilters f r = true ↔
      (∀ sv, f.service = some sv → r.service = sv) ∧
      (∀ lv, f.level = some lv → r.level = lv) := by
  cases hs : f.service <;> cases hl : f.level <;>
    simp [matchesFilters, hs, hl, beq_iff_eq]

/-- C1 counterexample: the metadata document submitted with keys in the
order `user_id`, `ip` is returned by a subsequent query on the ingested
record with the keys re-sorted into jsonb storage order — the document is
not returned byte-for-byte and key order is not preserved. -/
theorem C1_counterexample :
    (query c1Store c1Filters).logs.map LogRecord.metadata
        = [Json.obj [("ip", Json.str "1.2.3.4"), ("user_id", Json.str "456")]] ∧
      Json.obj [("ip", Json.str "1.2.3.4"), ("user_id", Json.str "456")] ≠ c1Meta := by
  decide

/-- C1 (amended): for every valid ingested record R, a subsequent query with
`service = R.service` and `level = R.level` (with a limit that covers the
matching set and respects the ceiling) returns R — id, service, level and
message round-trip exactly, while the metadata document is returned in its
jsonb-normalized form: semantically the submitted document, with object keys
re-sorted into jsonb storage order and duplicate keys collapsed. -/
theorem C1_roundtrip (st : Store) (now : Int) (req : IngestRequest)
    (r : LogRecord) (st2 : Store) (L : Int)
    (h : ingest st now req = .ok (r, st2))
    (hcount : ((st2.records.filter (matchesFilters (selfFilters r L))).length : Int) ≤ L)
    (hceil : L ≤ (maxLimit : Int)) :
    r ∈ (query st2 (selfFilters r L)).logs ∧
      r.metadata = (req.metadata.getD (Json.obj [])).jsonbNorm := by
  obtain ⟨hr, hst⟩ := ingest_ok_inv h
  constructor
  · have hmem : r ∈ st2.records := by
      rw [hst, hr]
      exact List.mem_append_right _ (List.mem_singleton_self _)
    have hmatch : matchesFilters (selfFilters r L) r = true := by
      simp [matchesFilters, selfFilters]
    have hmem2 : r ∈ st2.records.filter (matchesFilters (selfFilters r L)) :=
      List.mem_filter.mpr ⟨hmem, hmatch⟩
    have hlen0 : 0 ≤ ((st2.records.filter (matchesFilters (selfFilters r L))).length : Int) :=
      Int.natCast_nonneg _
    have hL0 : ¬ L < 0 := by omega
    have hclamp : (st2.records.filter (matchesFilters (selfFilters r L))).length
        ≤ clampLimit (some L) := by
      simp only [clampLimit, if_neg hL0, le_min_iff]
      constructor
      · omega
      · simp only [maxLimit] at hceil ⊢
        omega
    have hsorted : r ∈ sortRecords (st2.records.filter (matchesFilters (selfFilters r L))) :=
      mem_sortRecords.mpr hmem2
    have hpage : (query st2 (selfFilters r L)).logs
        = sortRecords (st2.records.filter (matchesFilters (selfFilters r L))) := by
      show ((sortRecords _).drop _).take _ = _
      rw [show ((selfFilters r L).offset.getD 0).toNat = 0 from rfl, List.drop_zero]
      exact List.take_of_length_le (by rw [length_sortRecords]; exact hclamp)
    rw [hpage]
    exact hsorted
  · rw [hr]
    rfl

/-- C1 witness: the amended round-trip instantiated on the scenario request,
ingested into the empty store. -/
theorem C1_roundtrip_witness :
    mkRecord emptyStore 5 c1Request ∈
        (query c1Store (selfFilters (mkRecord emptyStore 5 c1Request) 1)).logs ∧
      (mkRecord emptyStore 5 c1Request).metadata
        = ((c1Request.metadata).getD (Json.obj [])).jsonbNorm :=
  C1_roundtrip emptyStore 5 c1Request _ _ 1 rfl (by decide) (by decide)

/-- A sample ingest request with an empty message. -/
def emptyMsgRequest : IngestRequest :=
  { service := some "auth-service", level := some "ERROR"
  , message := some "", metadata := none, timestamp := none }

/-- C2: an ingest call whose `service`, `level` or `message` is empty or
missing fails with a `ValidationError`, persists no record (the store is
unchanged) and leaves `metrics().total_logs` unchanged. -/
theorem C2_invalid_rejected (st : Store) (now : Int) (req : IngestRequest)
    (h : presentNonEmpty req.service = false ∨ presentNonEmpty req.level = false ∨
      presentNonEmpty req.message = false) :
    (∃ fld, ingest st now req = Except.error (IngestError.validationError fld)) ∧
      applyIngest st (now, req) = st ∧
      (metrics (applyIngest st (now, req))).total_logs = (metrics st).total_logs := by
  have hv : validRequest req = false := by
    rcases h with h | h | h <;> simp [validRequest, h]
  have hs : applyIngest st (now, req) = st := applyIngest_invalid st now req hv
  exact ⟨ingest_eq_error st now req hv, hs, by rw [hs]⟩

/-- C2 witness: ingesting a record with an empty message into the sample
store fails with a `ValidationError` and changes nothing. -/
theorem C2_invalid_rejected_witness :
    (∃ fld, ingest sampleStore 7 emptyMsgRequest
        = Except.error (IngestError.validationError fld)) ∧
      applyIngest sampleStore (7, emptyMsgRequest) = sampleStore ∧
      (metrics (applyIngest sampleStore (7, emptyMsgRequest))).total_logs
        = (metrics sampleStore).total_logs :=
  C2_invalid_rejected sampleStore 7 emptyMsgRequest (Or.inr (Or.inr (by decide)))

/-- C3: at quiescence, `metrics()` is computed fresh from the store:
`total_logs` is the number of successfully ingested records, and the
`services` and `levels` mappings send each name to the count of its
records. -/
theorem C3_metrics_fresh (steps : List (Int × IngestRequest)) (sv lv : String) :
    (metrics (runIngests emptyStore steps)).total_logs
        = (steps.filter (fun p => validRequest p.2)).length ∧
      lookupCount (metrics (runIngests emptyStore steps)).services sv
        = ((runIngests emptyStore steps).records.filter (fun r => r.service == sv)).length ∧
      lookupCount (metrics (runIngests emptyStore steps)).levels lv
        = ((runIngests emptyStore steps).records.filter (fun r => r.level == lv)).length := by
  refine ⟨?_, ?_, ?_⟩
  · have := runIngests_length steps emptyStore
    simpa [metrics, emptyStore] using this
  · simp [metrics, lookupCount_countGroupedBy]
  · simp [metrics, lookupCount_countGroupedBy]

/-- C3 witness: the metrics equations instantiated on one concrete run of
three ingest calls (two valid, one invalid). -/
theorem C3_metrics_fresh_witness :
    (metrics (runIngests emptyStore
          [(1, sampleRequest), (2, emptyMsgRequest), (3, c1Request)])).total_logs
        = ([(1, sampleRequest), (2, emptyMsgRequest), (3, c1Request)].filter
            (fun p => validRequest p.2)).length ∧
      lookupCount (metrics (runIngests emptyStore
            [(1, sampleRequest), (2, emptyMsgRequest), (3, c1Request)])).services "auth-service"
        = ((runIngests emptyStore
              [(1, sampleRequest), (2, emptyMsgRequest), (3, c1Request)]).records.filter
            (fun r => r.service == "auth-service")).length ∧
      lookupCount (metrics (runIngests emptyStore
            [(1, sampleRequest), (2, emptyMsgRequest), (3, c1Request)])).levels "ERROR"
        = ((runIngests emptyStore
              [(1, sampleRequest), (2, emptyMsgRequest), (3, c1Request)]).records.filter
            (fun r => r.level == "ERROR")).length :=
  C3_metrics_fresh [(1, sampleRequest), (2, emptyMsgRequest), (3, c1Request)]
    "auth-service" "ERROR"

/-- C4: for every limit L the returned page holds at most
`min(L, ceiling)` records, a negative L clamping to the default of 100;
the limit is clamped, never rejected. -/
theorem C4_limit_clamped (st : Store) (sv lv : Option String)
    (off : Option Int) (L : Int) :
    (query st { service := sv, level := lv, limit := some L, offset := off }).logs.length
      ≤ if L < 0 then defaultLimit else min L.toNat maxLimit := by
  have hle : (query st { service := sv, level := lv, limit := some L, offset := off }).logs.length
      ≤ clampLimit (some L) := List.length_take_le _ _
  simpa [clampLimit] using hle

/-- C4 witness: the page-length bound instantiated on the sample store at
limit 0, limit -5 and limit 2000. -/
theorem C4_limit_clamped_witness :
    ((query sampleStore { service := none, level := none, limit := some 0, offset := none }).logs.length
        ≤ if (0 : Int) < 0 then defaultLimit else min (0 : Int).toNat maxLimit) ∧
      ((query sampleStore { service := none, level := none, limit := some (-5), offset := none }).logs.length
        ≤ if (-5 : Int) < 0 then defaultLimit else min (-5 : Int).toNat maxLimit) ∧
      ((query sampleStore { service := none, level := none, limit := some 2000, offset := none }).logs.length
        ≤ if (2000 : Int) < 0 then defaultLimit else min (2000 : Int).toNat maxLimit) :=
  ⟨C4_limit_clamped sampleStore none none none 0,
    C4_limit_clamped sampleStore none none none (-5),
    C4_limit_clamped sampleStore none none none 2000⟩

/-- C5: every query page is ordered by `event_time` descending with ties
broken by `id` (deterministic ordering), and a query with no filters pages
over the sorted full record set up to the limit. -/
theorem C5_ordering (st : Store) (f : LogFilters) (lim : Option Int) :
    List.Pairwise (fun a b => recordBefore a b = true) (query st f).logs ∧
      (query st { service := none, level := none, limit := lim, offset := none }).logs
        = (sortRecords st.records).take (clampLimit lim) := by
  constructor
  · exact (sortRecords_pairwise _).sublist (query_logs_sublist st f)
  · show ((sortRecords (st.records.filter _)).drop _).take _ = _
    rw [show st.records.filter
        (matchesFilters { service := none, level := none, limit := lim, offset := none })
        = st.records from List.filter_eq_self.mpr (fun r _ => rfl)]
    simp

/-- C5 witness: ordering and full coverage instantiated on the sample store
and the scenario filters. -/
theorem C5_ordering_witness :
    List.Pairwise (fun a b => recordBefore a b = true) (query sampleStore c1Filters).logs ∧
      (query sampleStore { service := none, level := none, limit := some 50, offset := none }).logs
        = (sortRecords sampleStore.records).take (clampLimit (some 50)) :=
  C5_ordering sampleStore c1Filters (some 50)

/-- C6: the returned total counts the matches ignoring limit and offset;
`limit = 0` yields an empty page beside that total, and an offset at or
beyond the result size yields an empty page, not an error. -/
theorem C6_total_and_edges (st : Store) (f g : LogFilters) (sv lv : Option String)
    (off2 : Option Int) (off : Int) (hg : g.offset = some off)
    (hbeyond : ((st.records.filter (matchesFilters g)).length : Int) ≤ off) :
    (query st f).total = (st.records.filter (matchesFilters f)).length ∧
      (query st { service := sv, level := lv, limit := some 0, offset := off2 }).logs = [] ∧
      (query st g).logs = [] := by
  refine ⟨rfl, ?_, ?_⟩
  · simp [query, clampLimit, maxLimit]
  · show ((sortRecords (st.records.filter (matchesFilters g))).drop
        ((g.offset.getD 0).toNat)).take _ = []
    rw [hg]
    have hdrop : (sortRecords (st.records.filter (matchesFilters g))).drop
        ((some off).getD 0).toNat = [] := by
      apply List.drop_eq_nil_of_le
      rw [length_sortRecords]
      simp only [Option.getD_some]
      omega
    rw [hdrop, List.take_nil]

/-- Sample filters carrying a zero limit. -/
def zeroLimitFilters : LogFilters :=
  { service := some "auth-service", level := none, limit := some 0, offset := none }

/-- Sample filters whose offset lies beyond the matching set. -/
def beyondOffsetFilters : LogFilters :=
  { service := some "auth-service", level := none, limit := none, offset := some 5 }

/-- C6 witness: total, zero limit and out-of-range offset instantiated on
the sample store. -/
theorem C6_total_and_edges_witness :
    (query sampleStore c1Filters).total
        = (sampleStore.records.filter (matchesFilters c1Filters)).length ∧
      (query sampleStore zeroLimitFilters).logs = [] ∧
      (query sampleStore beyondOffsetFilters).logs = [] :=
  C6_total_and_edges sampleStore c1Filters beyondOffsetFilters
    (some "auth-service") none none 5 rfl (by decide)

/-- C7: the service and level filters compose conjunctively — a record is in
the matching result set exactly when it is stored and matches every filter
that is present, an absent filter imposing no constraint; every record on
the returned page matches the filters. -/
theorem C7_conjunctive (st : Store) (f : LogFilters) (r : LogRecord) :
    (r ∈ st.records.filter (matchesFilters f) ↔
        r ∈ st.records ∧ (∀ sv, f.service = some sv → r.service = sv) ∧
          (∀ lv, f.level = some lv → r.level = lv)) ∧
      (r ∈ (query st f).logs → matchesFilters f r = true) := by
  constructor
  · rw [List.mem_filter, matchesFilters_iff]
  · intro hmem
    have h2 : r ∈ sortRecords (st.records.filter (matchesFilters f)) :=
      (query_logs_sublist st f).mem hmem
    exact (List.mem_filter.mp (mem_sortRecords.mp h2)).2

/-- C7 witness: conjunctive filter semantics instantiated on the sample
store, the scenario filters and the sample record. -/
theorem C7_conjunctive_witness :
    (sampleRecord ∈ sampleStore.records.filter (matchesFilters c1Filters) ↔
        sampleRecord ∈ sampleStore.records ∧
          (∀ sv, c1Filters.service = some sv → sampleRecord.service = sv) ∧
          (∀ lv, c1Filters.level = some lv → sampleRecord.level = lv)) ∧
      (sampleRecord ∈ (query sampleStore c1Filters).logs →
        matchesFilters c1Filters sampleRecord = true) :=
  C7_conjunctive sampleStore c1Filters sampleRecord

/-- C8: after any sequence of ingest calls from the empty store the
persisted ids are pairwise distinct, and one ingest call either leaves the
record list unchanged or appends exactly one record — no update or delete
path exists. -/
theorem C8_ids_unique_append_only (steps : List (Int × IngestRequest))
    (st : Store) (p : Int × IngestRequest) :
    List.Pairwise (fun a b => a.id ≠ b.id) (runIngests emptyStore steps).records ∧
      ((applyIngest st p).records = st.records ∨
        ∃ r, (applyIngest st p).records = st.records ++ [r]) := by
  constructor
  · have hinv : StoreInv (runIngests emptyStore steps) :=
      runIngests_inv steps emptyStore ⟨by simp [emptyStore], by simp [emptyStore]⟩
    exact hinv.2
  · obtain ⟨now, req⟩ := p
    by_cases hv : validRequest req
    · exact Or.inr ⟨mkRecord st now req, by rw [applyIngest_records, if_pos hv]⟩
    · exact Or.inl (by rw [applyIngest_records, if_neg (by simpa using hv)])

/-- C8 witness: id uniqueness and append-only behavior instantiated on a
concrete three-call run and one concrete call. -/
theorem C8_ids_unique_append_only_witness :
    List.Pairwise (fun a b => a.id ≠ b.id)
        (runIngests emptyStore
          [(1, sampleRequest), (2, emptyMsgRequest), (3, c1Request)]).records ∧
      ((applyIngest sampleStore (9, c1Request)).records = sampleStore.records ∨
        ∃ r, (applyIngest sampleStore (9, c1Request)).records
          = sampleStore.records ++ [r]) :=
  C8_ids_unique_append_only [(1, sampleRequest), (2, emptyMsgRequest), (3, c1Request)]
    sampleStore (9, c1Request)

/-- C9: a record ingested without a metadata field is persisted with
metadata `{}` — the schema default of `src/init.sql` — and is returned that
way rather than with an absent or null field. -/
theorem C9_metadata_default (st : Store) (now : Int) (req : IngestRequest)
    (r : LogRecord) (st2 : Store) (hmeta : req.metadata = none)
    (h : ingest st now req = .ok (r, st2)) :
    r.metadata = Json.obj [] ∧ r ∈ st2.records := by
  obtain ⟨hr, hst⟩ := ingest_ok_inv h
  constructor
  · rw [hr]
    show (req.metadata.getD (Json.obj [])).jsonbNorm = Json.obj []
    rw [hmeta]
    rfl
  · rw [hst, hr]
    exact List.mem_append_right _ (List.mem_singleton_self _)

/-- C9 witness: the metadata default instantiated on the sample request,
which carries no metadata. -/
theorem C9_metadata_default_witness :
    (mkRecord sampleStore 10 sampleRequest).metadata = Json.obj [] ∧
      mkRecord sampleStore 10 sampleRequest
        ∈ (applyIngest sampleStore (10, sampleRequest)).records :=
  C9_metadata_default sampleStore 10 sampleRequest _ _ rfl rfl

/-- C10: in the client request builder `fetchLogs`, a falsy filter value is
omitted from the request — `service` or `level` equal to the empty string
builds the same request as the absent filter, and `limit = 0` or
`offset = 0` build the same request as omitting them. -/
theorem C10_falsy_filters_omitted (f : LogFilters) :
    fetchLogsParams { f with service := some "" }
        = fetchLogsParams { f with service := none } ∧
      fetchLogsParams { f with level := some "" }
        = fetchLogsParams { f with level := none } ∧
      fetchLogsParams { f with limit := some 0 }
        = fetchLogsParams { f with limit := none } ∧
      fetchLogsParams { f with offset := some 0 }
        = fetchLogsParams { f with offset := none } := by
  refine ⟨?_, ?_, ?_, ?_⟩ <;>
    simp [fetchLogsParams, jsTruthyStr, jsTruthyInt, show "".isEmpty = true from rfl]

/-- C10 witness: the falsy-omission equations instantiated on the dashboard
default filter set. -/
theorem C10_falsy_filters_omitted_witness :
    fetchLogsParams { service := some "", level := some "ERROR", limit := some 100, offset := some 0 }
      = fetchLogsParams { service := none, level := some "ERROR", limit := some 100, offset := some 0 } :=
  (C10_falsy_filters_omitted
    { service := some "x", level := some "ERROR", limit := some 100, offset := some 0 }).1
